import Mathlib

/- Formal model of the mochi package distribution service:
   the Flask server (mochi-server.py) and the client CLI (mochi.py).
   INI configurations are modelled as association lists (configparser keeps
   insertion order and lowercases option keys on read and on assignment, so
   keys are assumed stored lowercase); the filesystem is an association list
   from absolute path to file bytes; HTTP handlers are pure functions of the
   loaded configuration, the filesystem and the Authorization header. -/

set_option maxRecDepth 100000

/-- An INI configuration as configparser represents it: the DEFAULT section
(whose entries chain behind every other section) plus the named sections in
file order.  A section is a list of lowercased key/value pairs. -/
structure Config where
  defaults : List (String × String)
  sections : List (String × List (String × String))
  deriving DecidableEq

/-- Look up a key in a single section's key/value list. -/
def lookupKey (kvs : List (String × String)) (key : String) : Option String :=
  (kvs.find? (fun kv => kv.1 = key)).map (fun kv => kv.2)

/-- configparser `has_section`: the DEFAULT section is never a section. -/
def Config.hasSection (c : Config) (s : String) : Bool :=
  c.sections.any (fun sec => sec.1 = s)

/-- configparser `section in config`: true for the default section name
`DEFAULT` or for any stored section (`__contains__`). -/
def Config.mem (c : Config) (s : String) : Bool :=
  s = "DEFAULT" || c.hasSection s

/-- configparser `get(section, key, fallback=None)`: a missing section gives
the fallback (here `none`); within a section the key chains to the DEFAULT
section's entries. -/
def Config.get (c : Config) (sect key : String) : Option String :=
  if sect = "DEFAULT" then lookupKey c.defaults key
  else
    match c.sections.find? (fun s => s.1 = sect) with
    | none => none
    | some s => (lookupKey s.2 key).orElse (fun _ => lookupKey c.defaults key)

/-- `str.startswith` / `String.startsWith`, on the character list. -/
def strStartsWith (s p : String) : Bool :=
  p.toList.isPrefixOf s.toList

/-- `str.endswith` / `String.endsWith`, on the character list. -/
def strEndsWith (s p : String) : Bool :=
  p.toList.reverse.isPrefixOf s.toList.reverse

/-- ASCII lowercasing of one character (`str.lower` on the alphabet the
server compares against). -/
def lowerChar (c : Char) : Char :=
  if 'A' ≤ c ∧ c ≤ 'Z' then Char.ofNat (c.toNat + 32) else c

/-- `str.lower()`. -/
def strToLower (s : String) : String :=
  String.mk (s.toList.map lowerChar)

/-- Python `str.strip()` whitespace set (the ASCII part). -/
def isPySpace (c : Char) : Bool :=
  c == ' ' || c == '\t' || c == '\n' || c == '\r' || c == '\x0b' || c == '\x0c'

/-- Python `str.strip()`: drop whitespace from both ends. -/
def pyStrip (s : String) : String :=
  String.mk (((s.toList.dropWhile isPySpace).reverse.dropWhile isPySpace).reverse)

/-- Python `str.removeprefix(p)`: drop `p` when it is a literal prefix,
otherwise return the string unchanged. -/
def removePfx (s p : String) : String :=
  if p.isPrefixOf s then s.drop p.length else s

/-- The token the request supplies, as `verify_token` normalizes it:
`request.headers.get('Authorization', '').removeprefix('Bearer ').strip()`;
a missing header reads as the empty string. -/
def providedToken (authHeader : Option String) : String :=
  pyStrip (removePfx (authHeader.getD "") "Bearer ")

/-- Outcome of the server's token gate. -/
inductive AuthResult
  | ok
  | unauthorized
  deriving DecidableEq

/-- `verify_token(config)`: reads the valid token from section `mochi`
(fallback None); a falsy token (absent or empty) disables the gate;
otherwise a mismatching provided token aborts with 401. -/
def verify_token (config : Config) (authHeader : Option String) : AuthResult :=
  match config.get "mochi" "token" with
  | none => .ok
  | some valid_token =>
      if valid_token ≠ "" ∧ providedToken authHeader ≠ valid_token then .unauthorized
      else .ok

/-- The server configuration that `load_configuration` auto-creates when
`server.ini` is absent: section `server` with port 8080 and token 0000. -/
def defaultServerConfig : Config :=
  ⟨[], [("server", [("port", "8080"), ("token", "0000")])]⟩

/-- The client configuration that `load_configuration` (mochi.py)
auto-creates when `mochi.ini` is absent. -/
def defaultClientConfig : Config :=
  ⟨[], [("mochi", [("server", "https://127.0.0.1:8080"), ("token", "0000"),
                   ("verify_ssl", "false")])]⟩

/-- A filesystem: absolute path to file bytes. -/
abbrev Fs := List (String × List Nat)

/-- `os.path.isfile` / reading a file's bytes. -/
def Fs.read (fs : Fs) (path : String) : Option (List Nat) :=
  (fs.find? (fun f => f.1 = path)).map (fun f => f.2)

/-- `os.remove`. -/
def Fs.remove (fs : Fs) (path : String) : Fs :=
  fs.filter (fun f => ¬ f.1 = path)

/-- `open(path, 'wb')` followed by writing all bytes: truncates any
existing file at the path. -/
def Fs.write (fs : Fs) (path : String) (bytes : List Nat) : Fs :=
  (path, bytes) :: Fs.remove fs path

/-- POSIX `os.path.join(a, b)` for two components: an absolute second
component discards the first; otherwise a single separator is inserted
unless the first already ends with one. -/
def joinPath (a b : String) : String :=
  if strStartsWith b "/" then b
  else if a = "" then b
  else if strEndsWith a "/" then a ++ b
  else a ++ "/" ++ b

/-- How both package endpoints resolve a registry `file` value:
`os.path.join(package_directory, file_name)`. -/
def resolvePath (root file_name : String) : String :=
  joinPath root file_name

-- SHA1 (the behaviour of hashlib.sha1 over the file's bytes; the 4096-byte
-- chunked feeding in compute_sha1_hash hashes exactly the concatenation of
-- the chunks, i.e. the whole content).

/-- Truncation to a 32-bit word. -/
def w32 (n : Nat) : Nat := n % 4294967296

/-- 32-bit left rotation (for `n < 2 ^ 32`). -/
def rotl (b n : Nat) : Nat :=
  (n % 2 ^ (32 - b)) * 2 ^ b + n / 2 ^ (32 - b)

/-- SHA1 round function. -/
def sha1F (i b c d : Nat) : Nat :=
  if i < 20 then (b &&& c) ||| ((4294967295 - w32 b) &&& d)
  else if i < 40 then b ^^^ c ^^^ d
  else if i < 60 then (b &&& c) ||| (b &&& d) ||| (c &&& d)
  else b ^^^ c ^^^ d

/-- SHA1 round constants. -/
def sha1K (i : Nat) : Nat :=
  if i < 20 then 0x5A827999
  else if i < 40 then 0x6ED9EBA1
  else if i < 60 then 0x8F1BBCDC
  else 0xCA62C1D6

/-- Big-endian assembly of bytes into 32-bit words. -/
def bytesToWords : List Nat → List Nat
  | b0 :: b1 :: b2 :: b3 :: rest =>
      (((b0 * 256 + b1) * 256 + b2) * 256 + b3) :: bytesToWords rest
  | _ => []

/-- SHA1 padding: a 0x80 byte, zeros to 56 mod 64, then the bit length as
eight big-endian bytes. -/
def padMessage (m : List Nat) : List Nat :=
  m ++ [128] ++ List.replicate ((119 - m.length % 64) % 64) 0
    ++ (List.range 8).map (fun i => 8 * m.length / 2 ^ (8 * (7 - i)) % 256)

/-- Split a byte list into 64-byte blocks (structural recursion on a fuel
bound by the list length: each step consumes at least one element). -/
def chunks64Fuel : Nat → List Nat → List (List Nat)
  | 0, _ => []
  | _, [] => []
  | fuel + 1, a :: rest =>
      ((a :: rest).take 64) :: chunks64Fuel fuel ((a :: rest).drop 64)

/-- Split a byte list into 64-byte blocks. -/
def chunks64 (l : List Nat) : List (List Nat) := chunks64Fuel l.length l

/-- One step of the SHA1 message-schedule extension. -/
def extendStep (ws : List Nat) : List Nat :=
  ws ++ [rotl 1 ((ws.getD (ws.length - 3) 0) ^^^ (ws.getD (ws.length - 8) 0)
    ^^^ (ws.getD (ws.length - 14) 0) ^^^ (ws.getD (ws.length - 16) 0))]

/-- Extend the 16 block words by the given number of schedule words. -/
def extendWords : Nat → List Nat → List Nat
  | 0, ws => ws
  | k + 1, ws => extendWords k (extendStep ws)

/-- The five SHA1 working registers. -/
structure Sha1State where
  a : Nat
  b : Nat
  c : Nat
  d : Nat
  e : Nat
  deriving DecidableEq

/-- One SHA1 compression round; the pair carries the round index and the
schedule word. -/
def sha1Round (st : Sha1State) (iw : Nat × Nat) : Sha1State :=
  ⟨w32 (rotl 5 st.a + sha1F iw.1 st.b st.c st.d + st.e + sha1K iw.1 + iw.2),
   st.a, rotl 30 st.b, st.c, st.d⟩

/-- Compress one 64-byte block into the running state. -/
def sha1Compress (h : Sha1State) (chunk : List Nat) : Sha1State :=
  let st := ((extendWords 64 (bytesToWords chunk)).enum).foldl sha1Round h
  ⟨w32 (h.a + st.a), w32 (h.b + st.b), w32 (h.c + st.c),
   w32 (h.d + st.d), w32 (h.e + st.e)⟩

/-- SHA1 initial state. -/
def sha1Init : Sha1State :=
  ⟨0x67452301, 0xEFCDAB89, 0x98BADCFE, 0x10325476, 0xC3D2E1F0⟩

/-- The sixteen lowercase hexadecimal digits. -/
def hexChars : List Char := String.toList "0123456789abcdef"

/-- The hexadecimal digit of a 4-bit value. -/
def hexDigit (n : Nat) : Char := hexChars.getD (n % 16) '0'

/-- A 32-bit word as eight lowercase hexadecimal characters. -/
def toHex8 (n : Nat) : String :=
  String.mk ((List.range 8).map (fun i => hexDigit (n / 16 ^ (7 - i))))

/-- `hashlib.sha1(bytes).hexdigest()`. -/
def sha1Hex (m : List Nat) : String :=
  let h := (chunks64 (padMessage m)).foldl sha1Compress sha1Init
  toHex8 h.a ++ toHex8 h.b ++ toHex8 h.c ++ toHex8 h.d ++ toHex8 h.e

/-- `compute_sha1_hash(file_path)`: the hex digest of the file's current
bytes (`none` models the IOError when the file is absent). -/
def compute_sha1_hash (fs : Fs) (file_path : String) : Option String :=
  (Fs.read fs file_path).map sha1Hex

-- Server endpoints.

/-- The version string both revisions ship. -/
def version : String := "2025.10.25"

/-- A package manifest as the server serializes it. -/
structure Manifest where
  name : String
  filename : String
  sha1 : String
  deriving DecidableEq

/-- An HTTP response of the server, abstracted over serialization. -/
inductive Resp
  | touchOk
  | versionOk (v : String)
  | listOk (names : List String)
  | manifestOk (m : Manifest)
  | fileOk (filename : String) (bytes : List Nat)
  | httpError (status : Nat) (message : String)
  deriving DecidableEq

/-- The HTTP status code of a response. -/
def Resp.status : Resp → Nat
  | .httpError s _ => s
  | _ => 200

/-- `GET /api/touch`: a fixed acknowledgment, no configuration and no
filesystem access, no token check. -/
def api_touch : Resp := .touchOk

/-- `GET /api/version`: the fixed version string, no token check. -/
def api_version : Resp := .versionOk version

/-- `GET /api/list`: token gate, then all section names except those whose
lowercasing is `server`. -/
def api_list_packages (config : Config) (authHeader : Option String) : Resp :=
  match verify_token config authHeader with
  | .unauthorized => .httpError 401 "Invalid or missing token"
  | .ok => .listOk ((config.sections.map (fun s => s.1)).filter
      (fun s => ¬ strToLower s = "server"))

/-- `GET /api/get/<package_name>`: token gate; 404 when the name is not in
the configuration (configparser membership, which includes `DEFAULT`);
500 when the `file` entry is missing or empty; 404 when the resolved path
is not a file; otherwise the manifest with a freshly computed SHA1. -/
def api_get_manifest (root : String) (config : Config) (fs : Fs)
    (authHeader : Option String) (package_name : String) : Resp :=
  match verify_token config authHeader with
  | .unauthorized => .httpError 401 "Invalid or missing token"
  | .ok =>
    if config.mem package_name = false then
      .httpError 404 "Package not found in configuration file."
    else
      match config.get package_name "file" with
      | none => .httpError 500 "Missing file entry in configuration."
      | some file_name =>
        if file_name = "" then .httpError 500 "Missing file entry in configuration."
        else
          match Fs.read fs (resolvePath root file_name) with
          | none => .httpError 404 "File not found"
          | some bytes => .manifestOk ⟨package_name, file_name, sha1Hex bytes⟩

/-- `GET /api/download/<package_name>`: identical checks to the manifest
endpoint, then the raw bytes as an attachment. -/
def api_download_package (root : String) (config : Config) (fs : Fs)
    (authHeader : Option String) (package_name : String) : Resp :=
  match verify_token config authHeader with
  | .unauthorized => .httpError 401 "Invalid or missing token"
  | .ok =>
    if config.mem package_name = false then
      .httpError 404 "Package not found in configuration file."
    else
      match config.get package_name "file" with
      | none => .httpError 500 "Missing file entry in configuration."
      | some file_name =>
        if file_name = "" then .httpError 500 "Missing file entry in configuration."
        else
          match Fs.read fs (resolvePath root file_name) with
          | none => .httpError 404 "File not found"
          | some bytes => .fileOk file_name bytes

-- Client commands.  A transport interaction is an Except: `.error`
-- models a raised requests exception (connection, DNS or TLS failure),
-- `.ok` the received status and payload.

/-- What a client command does once invoked: either it runs to completion
printing its messages, or an uncaught exception escapes it. -/
inductive CmdOutcome
  | completed (messages : List String)
  | crashed (exception : String)
  deriving DecidableEq

/-- The `Error:` line the guarded commands print from their except block. -/
def errorMsg (e : String) : String := "Error: " ++ e

/-- `command_touch`: the whole body sits in try/except, so a transport
error becomes a printed message. -/
def command_touch (resp : Except String Nat) : CmdOutcome :=
  match resp with
  | .error e => .completed [errorMsg e]
  | .ok status =>
      if status = 200 then .completed ["Server online!"]
      else .completed ["Server replied with code " ++ toString status]

/-- `command_version`: guarded by try/except; compares the local version
with the server's. -/
def command_version (resp : Except String (Nat × String)) : CmdOutcome :=
  match resp with
  | .error e => .completed [errorMsg e]
  | .ok (status, remote) =>
      if status = 200 then
        if version = remote then .completed ["Version match!"]
        else .completed ["Version mismatch! Local: " ++ version ++ " Server: " ++ remote]
      else .completed ["Server replied with code " ++ toString status]

/-- `command_list`: guarded by try/except. -/
def command_list (resp : Except String (Nat × List String)) : CmdOutcome :=
  match resp with
  | .error e => .completed [errorMsg e]
  | .ok (status, packages) =>
      if status = 200 then
        if packages.isEmpty then .completed ["No packages found."]
        else .completed ("Available Packages:" :: packages)
      else .completed ["Server error: " ++ toString status]

/-- The manifest fields `command_fetch` reads from the JSON body. -/
structure ClientManifest where
  filename : String
  sha1 : Option String
  deriving DecidableEq

/-- The HTTP failure line `download_file` prints. -/
def httpFailMsg (status : Nat) : String :=
  "Download failed: HTTP " ++ toString status

/-- The integrity failure line `download_file` prints, carrying the
expected and the locally recomputed hash. -/
def mismatchMsg (expected actual : String) : String :=
  "SHA1 mismatch! Expected: " ++ expected ++ " Got: " ++ actual

/-- `download_file(url, file_path, sha1_expected)`: the unguarded
`requests.get` may raise (propagated as `.error`); a non-200 status fails
without touching the file; otherwise the body is streamed to the file and,
when a truthy expected hash was supplied, the local file is re-hashed; on
mismatch the file is removed and the call fails with both hashes. -/
def download_file (resp : Except String (Nat × List Nat)) (file_path : String)
    (sha1_expected : Option String) (fs : Fs) :
    Except String (Fs × Bool × List String) :=
  match resp with
  | .error e => .error e
  | .ok (status, body) =>
    if status ≠ 200 then .ok (fs, false, [httpFailMsg status])
    else
      let fs1 := Fs.write fs file_path body
      match sha1_expected with
      | none => .ok (fs1, true, [])
      | some expected =>
        if expected = "" then .ok (fs1, true, [])
        else
          let local_hash := ((Fs.read fs1 file_path).map sha1Hex).getD ""
          if local_hash ≠ expected then
            .ok (Fs.remove fs1 file_path, false, [mismatchMsg expected local_hash])
          else .ok (fs1, true, [])

/-- The fetch progress line. -/
def fetchingMsg (package_name : String) : String :=
  "Fetching " ++ package_name

/-- The success line of a fetch, carrying the final local path. -/
def doneMsg (file_path : String) : String :=
  "Done! -> " ++ file_path

/-- `command_fetch(package_name)`: NOT wrapped in try/except, so a raised
transport exception (from either the manifest request or the download
stream) escapes as a crash.  A non-200 manifest status is reported and the
command returns; otherwise the file is downloaded next to `cwd` and the
outcome of `download_file` decides between the mismatch report and the
final `Done` line. -/
def command_fetch (package_name : String)
    (manifestResp : Except String (Nat × ClientManifest))
    (downloadResp : Except String (Nat × List Nat))
    (cwd : String) (fs : Fs) : Fs × CmdOutcome :=
  match manifestResp with
  | .error e => (fs, .crashed e)
  | .ok (status, manifest) =>
    if status ≠ 200 then
      (fs, .completed ["Package not found or server error (" ++ toString status ++ ")"])
    else
      let file_path := joinPath cwd manifest.filename
      match download_file downloadResp file_path manifest.sha1 fs with
      | .error e => (fs, .crashed e)
      | .ok (fs1, ok, msgs) =>
        (fs1, .completed (fetchingMsg package_name :: msgs
          ++ if ok then [doneMsg file_path] else []))

-- Client configuration commands.

/-- Python dict assignment on a section: replace in place or append. -/
def upsertKey : List (String × String) → String → String → List (String × String)
  | [], k, v => [(k, v)]
  | (k0, v0) :: rest, k, v =>
      if k0 = k then (k, v) :: rest else (k0, v0) :: upsertKey rest k v

/-- The shared body of `command_token` and `command_server`: ensure the
`mochi` section exists, then assign the key; persisting and reloading is
the identity on this representation. -/
def setMochiKey (config : Config) (key value : String) : Config :=
  if config.hasSection "mochi" then
    ⟨config.defaults, config.sections.map
      (fun s => if s.1 = "mochi" then (s.1, upsertKey s.2 key value) else s)⟩
  else
    ⟨config.defaults, config.sections ++ [("mochi", [(key, value)])]⟩

/-- `command_token(new_token)` as a transformation of the persisted
configuration. -/
def command_token (new_token : String) (config : Config) : Config :=
  setMochiKey config "token" new_token

/-- `command_server(new_address)` as a transformation of the persisted
configuration. -/
def command_server (new_address : String) (config : Config) : Config :=
  setMochiKey config "server" new_address

/-- The value stored in the `mochi` section itself for a key (no DEFAULT
chaining): what the persisted file records. -/
def mochiEntry (config : Config) (key : String) : Option String :=
  match config.sections.find? (fun s => s.1 = "mochi") with
  | none => none
  | some s => lookupKey s.2 key

-- Client settings readers (mochi.py module initialization).

/-- Python `getboolean` value parsing (`ValueError` on anything else). -/
def parseBool (s : String) : Option Bool :=
  let l := strToLower s
  if l = "1" ∨ l = "yes" ∨ l = "true" ∨ l = "on" then some true
  else if l = "0" ∨ l = "no" ∨ l = "false" ∨ l = "off" then some false
  else none

/-- `config.getboolean(section, key, fallback)`: the fallback applies only
to a missing section or key; an unparsable value raises. -/
def Config.getboolean (c : Config) (sect key : String) (fallback : Bool) :
    Except String Bool :=
  match c.get sect key with
  | none => .ok fallback
  | some v =>
    match parseBool v with
    | some b => .ok b
    | none => .error "ValueError"

/-- `verify_ssl = config.getboolean('mochi', 'verify_ssl', fallback=True)`. -/
def clientVerifySsl (config : Config) : Except String Bool :=
  config.getboolean "mochi" "verify_ssl" true

-- Path containment analysis (the spec's "within a fixed package-storage
-- root"; the code itself performs no such check).

/-- Split a character list at `/` separators, accumulating the current
segment in reverse. -/
def splitSlashAux : List Char → List Char → List String
  | [], acc => [String.mk acc.reverse]
  | c :: rest, acc =>
      if c = '/' then String.mk acc.reverse :: splitSlashAux rest []
      else splitSlashAux rest (c :: acc)

/-- The `/`-separated segments of a path. -/
def splitSlash (s : String) : List String := splitSlashAux s.toList []

/-- Segments that survive path normalization: drop empty and `.`. -/
def keepPart (p : String) : Bool := ¬ (p = "" ∨ p = ".")

/-- One step of path normalization: `.` and empty segments vanish, `..`
pops the previous segment, anything else is kept. -/
def normStep (acc : List String) (part : String) : List String :=
  if part = "" ∨ part = "." then acc
  else if part = ".." then acc.dropLast
  else acc ++ [part]

/-- The normalized segment list of a path. -/
def normComponents (p : String) : List String := (splitSlash p).foldl normStep []

/-- A path lies within a root when the root's normalized segments are a
prefix of the path's. -/
def isWithin (root p : String) : Bool :=
  (normComponents root).isPrefixOf (normComponents p)

-- Concrete configurations used as fixtures in the theorems below.

/-- A server configuration whose `mochi` section carries a token, i.e. one
for which `verify_token` actually gates requests. -/
def mochiTokenConfig : Config := ⟨[], [("mochi", [("token", "0000")])]⟩

/-- A registry whose single package entry names an absolute path. -/
def escapeConfig : Config := ⟨[], [("pkg", [("file", "/etc/passwd")])]⟩

/-- A filesystem holding a file outside any package storage root. -/
def escapeFs : Fs := [("/etc/passwd", [114, 111, 111, 116])]

/-- A registry with one well-formed package entry. -/
def widgetConfig : Config :=
  ⟨[], [("server", [("port", "8080"), ("token", "0000")]),
        ("widget", [("file", "widget.zip")])]⟩

/-- A filesystem holding the (empty) widget package file. -/
def widgetFs : Fs := [("/srv/mochi/instance/widget.zip", [])]

/-- A client configuration whose `mochi` section lacks `verify_ssl`. -/
def noSslKeyConfig : Config := ⟨[], [("mochi", [("server", "https://x")])]⟩


-- General lemmas about the embedded operations.

theorem hexDigit_mem_hexChars (n : Nat) : hexDigit n ∈ hexChars := by
  have h : n % 16 < 16 := Nat.mod_lt _ (by decide)
  have key : ∀ m, m < 16 → hexChars.getD m '0' ∈ hexChars := by decide
  exact key _ h

theorem toHex8_chars (n : Nat) : ∀ c ∈ (toHex8 n).toList, c ∈ hexChars := by
  intro c hc
  simp only [toHex8, String.toList, String.mk, List.mem_map] at hc
  obtain ⟨i, _, rfl⟩ := hc
  exact hexDigit_mem_hexChars _

theorem sha1Hex_length (m : List Nat) : (sha1Hex m).length = 40 := by
  simp [sha1Hex, String.length_append]
  rfl

theorem sha1Hex_chars (m : List Nat) : ∀ c ∈ (sha1Hex m).toList, c ∈ hexChars := by
  intro c hc
  simp only [sha1Hex, String.toList, String.data_append, List.mem_append] at hc
  rcases hc with ((((h | h) | h) | h) | h) <;> exact toHex8_chars _ _ h

theorem Fs.read_write (fs : Fs) (p : String) (b : List Nat) :
    Fs.read (Fs.write fs p b) p = some b := by
  simp [Fs.read, Fs.write, List.find?]

theorem Fs.read_remove (fs : Fs) (p : String) :
    Fs.read (Fs.remove fs p) p = none := by
  have hfind : List.find? (fun f => decide (f.1 = p))
      (List.filter (fun f => decide ¬ f.1 = p) fs) = none := by
    rw [List.find?_eq_none]
    intro x hx
    rw [List.mem_filter] at hx
    simpa using hx.2
  simp [Fs.read, Fs.remove, hfind]

theorem get_manifest_status_ne_401 (root : String) (config : Config) (fs : Fs)
    (hdr : Option String) (p : String) (h : verify_token config hdr = .ok) :
    (api_get_manifest root config fs hdr p).status ≠ 401 := by
  simp only [api_get_manifest, h]
  repeat' split
  all_goals simp [Resp.status]

theorem download_status_ne_401 (root : String) (config : Config) (fs : Fs)
    (hdr : Option String) (p : String) (h : verify_token config hdr = .ok) :
    (api_download_package root config fs hdr p).status ≠ 401 := by
  simp only [api_download_package, h]
  repeat' split
  all_goals simp [Resp.status]

theorem list_status_ne_401 (config : Config) (hdr : Option String)
    (h : verify_token config hdr = .ok) :
    (api_list_packages config hdr).status ≠ 401 := by
  simp [api_list_packages, h, Resp.status]

theorem lookupKey_cons (k0 v0 : String) (tl : List (String × String)) (k : String) :
    lookupKey ((k0, v0) :: tl) k = if k0 = k then some v0 else lookupKey tl k := by
  by_cases h : k0 = k <;> simp [lookupKey, List.find?, h]

theorem lookupKey_upsertKey_self (kvs : List (String × String)) (k v : String) :
    lookupKey (upsertKey kvs k v) k = some v := by
  induction kvs with
  | nil => simp [upsertKey, lookupKey, List.find?]
  | cons hd tl ih =>
    obtain ⟨k0, v0⟩ := hd
    by_cases h : k0 = k
    · simp [upsertKey, h, lookupKey_cons]
    · simp [upsertKey, h, lookupKey_cons, ih]

theorem lookupKey_upsertKey_ne (kvs : List (String × String)) (k k' v : String)
    (h : k' ≠ k) : lookupKey (upsertKey kvs k v) k' = lookupKey kvs k' := by
  have h2 : k ≠ k' := Ne.symm h
  induction kvs with
  | nil => simp [upsertKey, lookupKey, List.find?, h2]
  | cons hd tl ih =>
    obtain ⟨k0, v0⟩ := hd
    by_cases hk : k0 = k
    · subst hk
      simp [upsertKey, lookupKey_cons, h2]
    · simp [upsertKey, hk, lookupKey_cons, ih]

theorem upsertKey_idem (kvs : List (String × String)) (k v : String) :
    upsertKey (upsertKey kvs k v) k v = upsertKey kvs k v := by
  induction kvs with
  | nil => simp [upsertKey]
  | cons hd tl ih =>
    obtain ⟨k0, v0⟩ := hd
    by_cases h : k0 = k
    · simp [upsertKey, h]
    · simp [upsertKey, h, ih]

theorem find?_append_str {α : Type} (l1 l2 : List α) (p : α → Bool) :
    (l1 ++ l2).find? p = (l1.find? p).orElse (fun _ => l2.find? p) := by
  induction l1 with
  | nil => simp
  | cons hd tl ih =>
    by_cases h : p hd
    · simp [List.find?_cons_of_pos, h]
    · simp only [List.cons_append]
      rw [List.find?_cons_of_neg _ h, List.find?_cons_of_neg _ h, ih]

theorem find?_map_pres (l : List (String × List (String × String)))
    (f : String × List (String × String) → String × List (String × String))
    (s : String) (hf : ∀ x, (f x).1 = x.1) :
    (l.map f).find? (fun x => x.1 = s) = (l.find? (fun x => x.1 = s)).map f := by
  induction l with
  | nil => simp
  | cons hd tl ih =>
    by_cases h : hd.1 = s
    · rw [List.map_cons, List.find?_cons_of_pos, List.find?_cons_of_pos] <;>
        simp [hf, h]
    · rw [List.map_cons, List.find?_cons_of_neg, List.find?_cons_of_neg, ih] <;>
        simp [hf, h]

theorem setMochiKey_defaults (c : Config) (k v : String) :
    (setMochiKey c k v).defaults = c.defaults := by
  by_cases h : c.hasSection "mochi" <;> simp [setMochiKey, h]

theorem find?_mochi_none (c : Config) (h : c.hasSection "mochi" = false) :
    c.sections.find? (fun x => x.1 = "mochi") = none := by
  rw [List.find?_eq_none]
  intro x hx
  simp only [Config.hasSection, List.any_eq_false] at h
  simpa using h x hx

theorem find?_mochi_some (c : Config) (h : c.hasSection "mochi" = true) :
    ∃ kvs, c.sections.find? (fun x => x.1 = "mochi") = some ("mochi", kvs) := by
  simp only [Config.hasSection, List.any_eq_true] at h
  obtain ⟨x, hx, hx1⟩ := h
  have hsome : (c.sections.find? (fun x => x.1 = "mochi")).isSome := by
    rw [List.find?_isSome]
    exact ⟨x, hx, hx1⟩
  obtain ⟨y, hy⟩ := Option.isSome_iff_exists.mp hsome
  have hy1 := List.find?_some hy
  simp only [decide_eq_true_eq] at hy1
  refine ⟨y.2, ?_⟩
  rw [hy, ← hy1]

theorem mochiEntry_setMochiKey (c : Config) (k v key : String) :
    mochiEntry (setMochiKey c k v) key =
      if key = k then some v else mochiEntry c key := by
  by_cases hs : c.hasSection "mochi"
  · obtain ⟨kvs, hfind⟩ := find?_mochi_some c hs
    have hpres : ∀ x : String × List (String × String),
        ((fun s => if s.1 = "mochi" then (s.1, upsertKey s.2 k v) else s) x).1 = x.1 := by
      intro x
      by_cases hx : x.1 = "mochi" <;> simp [hx]
    simp only [mochiEntry, setMochiKey, hs, if_true]
    rw [find?_map_pres _ _ _ hpres, hfind]
    simp only [Option.map_some]
    by_cases hk : key = k
    · simp [hk, lookupKey_upsertKey_self]
    · simp [hk, lookupKey_upsertKey_ne _ _ _ _ hk]
  · have hsf : c.hasSection "mochi" = false := by simpa using hs
    have hfind := find?_mochi_none c hsf
    simp only [mochiEntry, setMochiKey, hsf, Bool.false_eq_true, if_false]
    rw [find?_append_str, hfind]
    simp only [Option.orElse, List.find?]
    by_cases hk : key = k
    · simp [hk, lookupKey_cons]
    · simp [hk, lookupKey_cons, Ne.symm hk, lookupKey, List.find?]

theorem hasSection_setMochiKey (c : Config) (k v : String) :
    (setMochiKey c k v).hasSection "mochi" = true := by
  by_cases hs : c.hasSection "mochi"
  · unfold setMochiKey
    rw [if_pos hs]
    simp only [Config.hasSection, List.any_eq_true] at hs ⊢
    obtain ⟨x, hx, hx1⟩ := hs
    simp only [decide_eq_true_eq] at hx1
    exact ⟨(x.1, upsertKey x.2 k v), List.mem_map.mpr ⟨x, hx, by simp [hx1]⟩,
      by simpa using hx1⟩
  · unfold setMochiKey
    rw [if_neg hs]
    simp [Config.hasSection]

theorem get_mochi_setMochiKey (c : Config) (k v key : String) :
    (setMochiKey c k v).get "mochi" key =
      if key = k then some v
      else (mochiEntry c key).orElse (fun _ => lookupKey c.defaults key) := by
  have hdef := setMochiKey_defaults c k v
  have hme := mochiEntry_setMochiKey c k v key
  obtain ⟨kvs2, hfind2⟩ := find?_mochi_some _ (hasSection_setMochiKey c k v)
  have hme2 : mochiEntry (setMochiKey c k v) key = lookupKey kvs2 key := by
    simp [mochiEntry, hfind2]
  simp only [Config.get, reduceIte, hfind2, hdef]
  by_cases hk : key = k
  · have hlk : lookupKey kvs2 key = some v := by
      rw [← hme2, hme, if_pos hk]
    rw [hlk, if_pos hk]
    rfl
  · have hlk : lookupKey kvs2 key = mochiEntry c key := by
      rw [← hme2, hme, if_neg hk]
    rw [hlk, if_neg hk]
    simp

theorem config_ext (c1 c2 : Config) (h1 : c1.defaults = c2.defaults)
    (h2 : c1.sections = c2.sections) : c1 = c2 := by
  cases c1
  cases c2
  simp_all

theorem sections_setMochiKey (c : Config) (k v : String) :
    (setMochiKey c k v).sections =
      if c.hasSection "mochi" = true
      then c.sections.map (fun s => if s.1 = "mochi" then (s.1, upsertKey s.2 k v) else s)
      else c.sections ++ [("mochi", [(k, v)])] := by
  unfold setMochiKey
  by_cases hs : c.hasSection "mochi" <;> simp [hs]

theorem map_eq_self_of_fix {α : Type} (l : List α) (f : α → α)
    (h : ∀ x ∈ l, f x = x) : l.map f = l := by
  induction l with
  | nil => rfl
  | cons hd tl ih =>
    rw [List.map_cons, h hd (by simp), ih (fun x hx => h x (by simp [hx]))]

theorem sections_not_mochi (c : Config) (hs : ¬ c.hasSection "mochi" = true) :
    ∀ x ∈ c.sections, ¬ x.1 = "mochi" := by
  have hsf : c.hasSection "mochi" = false := by simpa using hs
  simp only [Config.hasSection, List.any_eq_false] at hsf
  intro x hx
  simpa using hsf x hx

theorem setMochiKey_idem (c : Config) (k v : String) :
    setMochiKey (setMochiKey c k v) k v = setMochiKey c k v := by
  apply config_ext
  · rw [setMochiKey_defaults, setMochiKey_defaults]
  · rw [sections_setMochiKey, if_pos (hasSection_setMochiKey c k v),
      sections_setMochiKey]
    by_cases hs : c.hasSection "mochi"
    · rw [if_pos hs, List.map_map]
      apply List.map_congr_left
      intro x _
      by_cases hx : x.1 = "mochi"
      · simp [Function.comp, hx, upsertKey_idem]
      · simp [Function.comp, hx]
    · rw [if_neg hs, List.map_append]
      have hall := sections_not_mochi c hs
      rw [map_eq_self_of_fix _ _ (fun x hx => by simp [hall x hx])]
      simp [upsertKey]

theorem find?_setMochiKey_other (c : Config) (k v sec : String) (h : sec ≠ "mochi") :
    (setMochiKey c k v).sections.find? (fun x => x.1 = sec) =
      c.sections.find? (fun x => x.1 = sec) := by
  rw [sections_setMochiKey]
  by_cases hs : c.hasSection "mochi"
  · rw [if_pos hs]
    have hpres : ∀ x : String × List (String × String),
        ((fun s => if s.1 = "mochi" then (s.1, upsertKey s.2 k v) else s) x).1 = x.1 := by
      intro x
      by_cases hx : x.1 = "mochi" <;> simp [hx]
    rw [find?_map_pres _ _ _ hpres]
    cases hfind : c.sections.find? (fun x => x.1 = sec) with
    | none => rfl
    | some y =>
      have hy1 := List.find?_some hfind
      simp only [decide_eq_true_eq] at hy1
      simp [hy1, h]
  · rw [if_neg hs]
    rw [find?_append_str]
    cases hfind : c.sections.find? (fun x => x.1 = sec) with
    | none => simp [List.find?, Ne.symm h, Option.orElse]
    | some y => rfl

theorem splitSlashAux_append (xs ys acc : List Char) :
    splitSlashAux (xs ++ '/' :: ys) acc = splitSlashAux xs acc ++ splitSlashAux ys [] := by
  induction xs generalizing acc with
  | nil => simp [splitSlashAux]
  | cons c rest ih =>
    by_cases hc : c = '/'
    · simp [splitSlashAux, hc, ih]
    · simp [splitSlashAux, hc, ih]

theorem foldl_normStep (parts : List String) (acc : List String)
    (h : ∀ p ∈ parts, ¬ p = "..") :
    parts.foldl normStep acc = acc ++ parts.filter keepPart := by
  induction parts generalizing acc with
  | nil => simp
  | cons hd tl ih =>
    have hhd : ¬ hd = ".." := h hd (by simp)
    have htl : ∀ p ∈ tl, ¬ p = ".." := fun p hp => h p (by simp [hp])
    by_cases h1 : hd = "" ∨ hd = "."
    · rw [List.foldl_cons, ih _ htl]
      have hstep : normStep acc hd = acc := by simp [normStep, h1]
      rw [hstep]
      have hfil : List.filter keepPart (hd :: tl) = List.filter keepPart tl := by
        simp [List.filter, keepPart, h1]
      rw [hfil]
    · rw [List.foldl_cons, ih _ htl]
      have hstep : normStep acc hd = acc ++ [hd] := by simp [normStep, h1, hhd]
      rw [hstep]
      have hfil : List.filter keepPart (hd :: tl) = hd :: List.filter keepPart tl := by
        simp [List.filter, keepPart, h1]
      rw [hfil, List.append_assoc]
      rfl

theorem splitSlash_join (root fn : String) :
    splitSlash (root ++ "/" ++ fn) = splitSlash root ++ splitSlash fn := by
  have hdata : (root ++ "/" ++ fn).data = root.data ++ '/' :: fn.data := by
    rw [String.data_append, String.data_append, List.append_assoc]
    rfl
  simp only [splitSlash, String.toList, hdata]
  exact splitSlashAux_append _ _ _

theorem normComponents_join (root fn : String) (hdot : ¬ ".." ∈ splitSlash fn) :
    normComponents (root ++ "/" ++ fn) =
      normComponents root ++ (splitSlash fn).filter keepPart := by
  rw [normComponents, splitSlash_join, List.foldl_append]
  exact foldl_normStep _ _ (fun p hp heq => hdot (heq ▸ hp))

-- Claim theorems.

/-- C1: when the configuration carries a non-empty token where
`verify_token` reads it, a missing Authorization header or one whose
normalized value does not match the token makes `/api/list`,
`/api/get/<p>` and `/api/download/<p>` all answer 401, independently of
the filesystem and of the requested package (no registry lookup or file
access influences the answer), while `/api/touch` and `/api/version`
answer 200 unconditionally.  A missing header is the instance
`hdr = none`, whose normalized value is `""` and thus differs from the
non-empty token. -/
theorem auth_gate_unauthorized (root : String) (config : Config) (fs : Fs)
    (hdr : Option String) (p : String) (t : String)
    (htok : config.get "mochi" "token" = some t) (hne : t ≠ "")
    (hmis : providedToken hdr ≠ t) :
    api_list_packages config hdr = .httpError 401 "Invalid or missing token" ∧
    api_get_manifest root config fs hdr p = .httpError 401 "Invalid or missing token" ∧
    api_download_package root config fs hdr p = .httpError 401 "Invalid or missing token" ∧
    (∀ (fs2 : Fs) (p2 : String),
      api_get_manifest root config fs2 hdr p2 = api_get_manifest root config fs hdr p ∧
      api_download_package root config fs2 hdr p2 = api_download_package root config fs hdr p) ∧
    api_touch.status = 200 ∧ api_version.status = 200 := by
  have hauth : verify_token config hdr = .unauthorized := by
    simp [verify_token, htok, hne, hmis]
  refine ⟨by simp [api_list_packages, hauth], by simp [api_get_manifest, hauth],
    by simp [api_download_package, hauth], ?_, rfl, rfl⟩
  intro fs2 p2
  constructor
  · simp [api_get_manifest, hauth]
  · simp [api_download_package, hauth]

/-- Witness for C1: the configured token `0000` with a missing header is
rejected with 401 on all three gated endpoints at concrete inputs. -/
theorem auth_gate_unauthorized_witness :
    api_list_packages mochiTokenConfig none = .httpError 401 "Invalid or missing token" ∧
    api_get_manifest "/srv/mochi/instance" mochiTokenConfig [] none "widget"
      = .httpError 401 "Invalid or missing token" ∧
    api_download_package "/srv/mochi/instance" mochiTokenConfig [] none "widget"
      = .httpError 401 "Invalid or missing token" ∧
    api_touch.status = 200 ∧ api_version.status = 200 := by
  have h := auth_gate_unauthorized "/srv/mochi/instance" mochiTokenConfig [] none
    "widget" "0000" rfl (by decide) (by decide)
  exact ⟨h.1, h.2.1, h.2.2.1, h.2.2.2.2⟩

/-- C2: the auto-created server configuration stores port `8080` and token
`0000` in section `server`, but `verify_token` reads section `mochi` and
finds nothing, so under this configuration no request to the gated
endpoints is ever answered with 401, whatever the Authorization header. -/
theorem default_server_config_open :
    defaultServerConfig.get "server" "port" = some "8080" ∧
    defaultServerConfig.get "server" "token" = some "0000" ∧
    defaultServerConfig.get "mochi" "token" = none ∧
    ∀ (root : String) (fs : Fs) (hdr : Option String) (p : String),
      verify_token defaultServerConfig hdr = .ok ∧
      (api_list_packages defaultServerConfig hdr).status ≠ 401 ∧
      (api_get_manifest root defaultServerConfig fs hdr p).status ≠ 401 ∧
      (api_download_package root defaultServerConfig fs hdr p).status ≠ 401 := by
  refine ⟨rfl, rfl, rfl, ?_⟩
  intro root fs hdr p
  have hok : verify_token defaultServerConfig hdr = .ok := rfl
  exact ⟨hok, list_status_ne_401 _ _ hok, get_manifest_status_ne_401 _ _ _ _ _ hok,
    download_status_ne_401 _ _ _ _ _ hok⟩

/-- Witness for C2: with the auto-created configuration even an arbitrary
wrong header passes the gate at concrete inputs. -/
theorem default_server_config_open_witness :
    verify_token defaultServerConfig (some "wrong") = .ok ∧
    (api_list_packages defaultServerConfig (some "wrong")).status ≠ 401 := by
  have h := (default_server_config_open.2.2.2) "/srv/mochi/instance" [] (some "wrong") "widget"
  exact ⟨h.1, h.2.1⟩

/-- C3: for an authorized request about a registry section whose `file`
entry names an existing file, `/api/get/<p>` returns the manifest whose
`sha1` is the SHA1 hex digest of the file's current bytes; that digest has
40 characters, all lowercase hexadecimal, and a repeated request under any
filesystem still holding the same bytes returns the identical response
(the hash is recomputed from the current bytes each time, so unchanged
bytes give an unchanged digest). -/
theorem manifest_sha1_fresh (root : String) (config : Config) (fs fs2 : Fs)
    (hdr hdr2 : Option String) (p fn : String) (bytes : List Nat)
    (hauth : verify_token config hdr = .ok)
    (hsec : config.hasSection p = true)
    (hfile : config.get p "file" = some fn) (hfn : fn ≠ "")
    (hread : Fs.read fs (resolvePath root fn) = some bytes) :
    api_get_manifest root config fs hdr p = .manifestOk ⟨p, fn, sha1Hex bytes⟩ ∧
    (sha1Hex bytes).length = 40 ∧
    (∀ c ∈ (sha1Hex bytes).toList, c ∈ hexChars) ∧
    (verify_token config hdr2 = .ok → Fs.read fs2 (resolvePath root fn) = some bytes →
      api_get_manifest root config fs2 hdr2 p = api_get_manifest root config fs hdr p) := by
  have hmem : config.mem p = true := by simp [Config.mem, hsec]
  have main : api_get_manifest root config fs hdr p = .manifestOk ⟨p, fn, sha1Hex bytes⟩ := by
    simp [api_get_manifest, hauth, hmem, hfile, hfn, hread]
  refine ⟨main, sha1Hex_length bytes, sha1Hex_chars bytes, ?_⟩
  intro h2 hread2
  rw [main]
  simp [api_get_manifest, h2, hmem, hfile, hfn, hread2]

/-- Witness for C3: the empty `widget.zip` yields the well-known digest of
the empty byte string, with the stated length. -/
theorem manifest_sha1_fresh_witness :
    api_get_manifest "/srv/mochi/instance" widgetConfig widgetFs none "widget"
      = .manifestOk ⟨"widget", "widget.zip", sha1Hex []⟩ ∧
    (sha1Hex ([] : List Nat)).length = 40 ∧
    sha1Hex [] = "da39a3ee5e6b4b0d3255bfef95601890afd80709" := by
  have h := manifest_sha1_fresh "/srv/mochi/instance" widgetConfig widgetFs widgetFs
    none none "widget" "widget.zip" [] rfl rfl rfl (by decide) rfl
  exact ⟨h.1, h.2.1, rfl⟩

/-- C4: in the client fetch, once the download stream has completed (both
HTTP statuses 200) and the manifest supplied a non-empty sha1, the local
file's hash is recomputed and compared: on mismatch the downloaded file is
deleted (no file remains at the target path), the fetch fails and its
output reports the expected and the actual hash; on match the file with
the downloaded bytes remains and the fetch reports the final local path. -/
theorem fetch_integrity_check (package_name : String) (m : ClientManifest)
    (h : String) (body : List Nat) (cwd : String) (fs : Fs)
    (hsha : m.sha1 = some h) (hne : h ≠ "") :
    (sha1Hex body ≠ h →
        Fs.read (command_fetch package_name (.ok (200, m)) (.ok (200, body)) cwd fs).1
            (joinPath cwd m.filename) = none ∧
        (command_fetch package_name (.ok (200, m)) (.ok (200, body)) cwd fs).2 =
          .completed [fetchingMsg package_name, mismatchMsg h (sha1Hex body)]) ∧
    (sha1Hex body = h →
        Fs.read (command_fetch package_name (.ok (200, m)) (.ok (200, body)) cwd fs).1
            (joinPath cwd m.filename) = some body ∧
        (command_fetch package_name (.ok (200, m)) (.ok (200, body)) cwd fs).2 =
          .completed [fetchingMsg package_name, doneMsg (joinPath cwd m.filename)]) := by
  constructor
  · intro hmis
    simp [command_fetch, download_file, hsha, hne, Fs.read_write, hmis, Fs.read_remove]
  · intro heq
    simp [command_fetch, download_file, hsha, hne, Fs.read_write, heq]

/-- Witness for C4: a download of corrupted (here: empty) bytes against a
mismatching expected hash leaves no file behind and reports both hashes. -/
theorem fetch_integrity_check_witness :
    Fs.read (command_fetch "widget"
        (.ok (200, ⟨"widget.zip", some "0000000000000000000000000000000000000000"⟩))
        (.ok (200, [])) "/home/user" []).1 (joinPath "/home/user" "widget.zip") = none ∧
    (command_fetch "widget"
        (.ok (200, ⟨"widget.zip", some "0000000000000000000000000000000000000000"⟩))
        (.ok (200, [])) "/home/user" []).2 =
      .completed [fetchingMsg "widget",
        mismatchMsg "0000000000000000000000000000000000000000" (sha1Hex [])] := by
  have h := fetch_integrity_check "widget"
    ⟨"widget.zip", some "0000000000000000000000000000000000000000"⟩
    "0000000000000000000000000000000000000000" [] "/home/user" [] rfl (by decide)
  exact h.1 (by rw [show sha1Hex [] = "da39a3ee5e6b4b0d3255bfef95601890afd80709" from rfl]; decide)

/-- C5 counterexample: the name `DEFAULT` is not a section of the
registry, yet configparser membership treats it as present, so both
endpoints answer 500 (missing `file` entry) instead of the claimed 404. -/
theorem package_default_500_cex :
    defaultServerConfig.hasSection "DEFAULT" = false ∧
    (api_get_manifest "/srv/mochi/instance" defaultServerConfig [] none "DEFAULT").status = 500 ∧
    (api_download_package "/srv/mochi/instance" defaultServerConfig [] none "DEFAULT").status = 500 :=
  ⟨rfl, rfl, rfl⟩

/-- C5 amended: for an authorized request, a package name that is neither
a configuration section nor the special name `DEFAULT` gets 404 from both
`/api/get` and `/api/download`; a section without a (non-empty) `file`
value gets 500 from both; a section whose `file` names a non-existent
file gets 404 from both. -/
theorem package_errors_amended (root : String) (config : Config) (fs : Fs)
    (hdr : Option String) (p : String)
    (hauth : verify_token config hdr = .ok) (hp : p ≠ "DEFAULT") :
    (config.hasSection p = false →
      (api_get_manifest root config fs hdr p).status = 404 ∧
      (api_download_package root config fs hdr p).status = 404) ∧
    (config.hasSection p = true → (config.get p "file" = none ∨ config.get p "file" = some "") →
      (api_get_manifest root config fs hdr p).status = 500 ∧
      (api_download_package root config fs hdr p).status = 500) ∧
    (∀ fn, config.hasSection p = true → config.get p "file" = some fn → fn ≠ "" →
      Fs.read fs (resolvePath root fn) = none →
      (api_get_manifest root config fs hdr p).status = 404 ∧
      (api_download_package root config fs hdr p).status = 404) := by
  have hmem_of : config.hasSection p = true → config.mem p = true := fun h => by
    simp [Config.mem, h]
  have hmem_not : config.hasSection p = false → config.mem p = false := fun h => by
    simp [Config.mem, h, hp]
  refine ⟨?_, ?_, ?_⟩
  · intro h
    simp [api_get_manifest, api_download_package, hauth, hmem_not h, Resp.status]
  · rintro hs (h | h) <;>
      simp [api_get_manifest, api_download_package, hauth, hmem_of hs, h, Resp.status]
  · intro fn hs hf hfn hread
    simp [api_get_manifest, api_download_package, hauth, hmem_of hs, hf, hfn, hread, Resp.status]

/-- Witness for C5: a name absent from the default configuration gets 404
from both endpoints. -/
theorem package_errors_amended_witness :
    (api_get_manifest "/srv/mochi/instance" defaultServerConfig [] none "nosuch").status = 404 ∧
    (api_download_package "/srv/mochi/instance" defaultServerConfig [] none "nosuch").status = 404 :=
  (package_errors_amended "/srv/mochi/instance" defaultServerConfig [] none "nosuch"
    rfl (by decide)).1 rfl

/-- C6 counterexample: an absolute `file` value escapes the storage root:
`os.path.join` discards the root, the resolved path is not within it, and
the endpoints hash and serve the outside file all the same. -/
theorem resolve_escape_cex :
    resolvePath "/srv/mochi/instance" "/etc/passwd" = "/etc/passwd" ∧
    isWithin "/srv/mochi/instance" "/etc/passwd" = false ∧
    isWithin "/srv/mochi/instance" (resolvePath "/srv/mochi/instance" "../../etc/passwd") = false ∧
    api_get_manifest "/srv/mochi/instance" escapeConfig escapeFs none "pkg"
      = .manifestOk ⟨"pkg", "/etc/passwd", sha1Hex [114, 111, 111, 116]⟩ ∧
    api_download_package "/srv/mochi/instance" escapeConfig escapeFs none "pkg"
      = .fileOk "/etc/passwd" [114, 111, 111, 116] :=
  ⟨rfl, rfl, rfl, rfl, rfl⟩

/-- C6 amended: when the storage root is non-empty and does not end in a
separator, a relative `file` value (not starting with `/` and containing
no `..` segment) always resolves to a path within the root; the code
itself performs no such containment check, so absolute or `..`-carrying
values escape. -/
theorem resolve_within_root (root fn : String) (hroot : ¬ root = "")
    (hslash : strEndsWith root "/" = false)
    (habs : strStartsWith fn "/" = false)
    (hdot : ¬ ".." ∈ splitSlash fn) :
    isWithin root (resolvePath root fn) = true := by
  have hjoin : resolvePath root fn = root ++ "/" ++ fn := by
    unfold resolvePath joinPath
    rw [if_neg (by simp [habs]), if_neg hroot, if_neg (by simp [hslash])]
  rw [hjoin, isWithin, normComponents_join root fn hdot, List.isPrefixOf_iff_prefix]
  exact List.prefix_append _ _

/-- Witness for C6: a benign relative filename resolves inside the root. -/
theorem resolve_within_root_witness :
    isWithin "/srv/mochi/instance" (resolvePath "/srv/mochi/instance" "pkgs/widget.zip") = true :=
  resolve_within_root "/srv/mochi/instance" "pkgs/widget.zip"
    (by decide) (by decide) (by decide) (by decide)

/-- C7 counterexample: with token `0000`, the header value `0000 `
(trailing blank) is not string-equal to the token after stripping the
`Bearer ` prefix, yet `verify_token` authorizes it, because the code also
strips surrounding whitespace. -/
theorem token_compare_cex :
    verify_token mochiTokenConfig (some "0000 ") = .ok ∧
    removePfx "0000 " "Bearer " ≠ "0000" :=
  ⟨rfl, by decide⟩

/-- C7 amended: with a non-empty configured token, a request is authorized
exactly when the supplied header value, after stripping a literal
`Bearer ` prefix AND stripping surrounding whitespace, is string-equal to
the token. -/
theorem token_compare_amended (config : Config) (t : String) (hdr : Option String)
    (htok : config.get "mochi" "token" = some t) (hne : t ≠ "") :
    verify_token config hdr = .ok ↔ providedToken hdr = t := by
  simp only [verify_token, htok]
  by_cases hc : providedToken hdr = t
  · simp [hc]
  · simp [hc, hne]

/-- Witness for C7: the exact `Bearer 0000` header is authorized against
token `0000`. -/
theorem token_compare_amended_witness :
    verify_token mochiTokenConfig (some "Bearer 0000") = .ok :=
  (token_compare_amended mochiTokenConfig "0000" (some "Bearer 0000") rfl
    (by decide)).mpr (by with_unfolding_all rfl)

/-- C8 (code bug): `command_touch`, `command_version` and `command_list`
wrap their body in try/except and turn a raised transport error into a
printed message, but `command_fetch` calls `requests.get` (both for the
manifest and, via `download_file`, for the stream) outside any handler, so
a transport failure escapes it as an uncaught exception and crashes the
CLI, contradicting the claim that every command catches and prints such
failures and returns cleanly. -/
theorem fetch_transport_crash :
    command_fetch "widget" (.error "ConnectionError") (.ok (200, [])) "/home/user" []
      = ([], .crashed "ConnectionError") ∧
    command_fetch "widget"
        (.ok (200, ⟨"widget.zip", some "da39a3ee5e6b4b0d3255bfef95601890afd80709"⟩))
        (.error "ReadTimeout") "/home/user" []
      = ([], .crashed "ReadTimeout") ∧
    command_touch (.error "ConnectionError") = .completed [errorMsg "ConnectionError"] ∧
    command_version (.error "ConnectionError") = .completed [errorMsg "ConnectionError"] ∧
    command_list (.error "ConnectionError") = .completed [errorMsg "ConnectionError"] :=
  ⟨rfl, rfl, rfl, rfl, rfl⟩

/-- C9 counterexample: the auto-created client configuration stores
`verify_ssl = false`, so loading it yields `false`, not the claimed
documented default `true`. -/
theorem verify_ssl_default_cex :
    defaultClientConfig.get "mochi" "verify_ssl" = some "false" ∧
    clientVerifySsl defaultClientConfig = .ok false :=
  ⟨rfl, rfl⟩

/-- C9 amended: the `getboolean` fallback makes a configuration without a
`verify_ssl` key read as `true`, but the configuration auto-created when
the file is absent sets `verify_ssl = false` and therefore reads as
`false`. -/
theorem verify_ssl_amended :
    clientVerifySsl defaultClientConfig = .ok false ∧
    (∀ config : Config, config.get "mochi" "verify_ssl" = none →
      clientVerifySsl config = .ok true) := by
  refine ⟨rfl, ?_⟩
  intro config h
  simp [clientVerifySsl, Config.getboolean, h]

/-- Witness for C9: a client configuration whose `mochi` section lacks the
`verify_ssl` key reads as `true`. -/
theorem verify_ssl_amended_witness :
    clientVerifySsl noSslKeyConfig = .ok true :=
  verify_ssl_amended.2 noSslKeyConfig rfl

/-- C10: `command_token` and `command_server` each upsert exactly their
own key in the `mochi` section of the loaded configuration: after setting
token `t` then server `s`, the reloaded configuration reads token `t` and
server `s`; repeating either command with the same value leaves the
configuration unchanged; every other stored key of the `mochi` section,
every other section, and the DEFAULT entries keep their prior values. -/
theorem set_token_server_persist (config : Config) (t s : String) :
    (command_server s (command_token t config)).get "mochi" "token" = some t ∧
    (command_server s (command_token t config)).get "mochi" "server" = some s ∧
    command_token t (command_token t config) = command_token t config ∧
    command_server s (command_server s config) = command_server s config ∧
    (∀ key, key ≠ "token" → mochiEntry (command_token t config) key = mochiEntry config key) ∧
    (∀ key, key ≠ "server" → mochiEntry (command_server s config) key = mochiEntry config key) ∧
    (∀ sec, sec ≠ "mochi" →
      (command_token t config).sections.find? (fun x => x.1 = sec) =
        config.sections.find? (fun x => x.1 = sec) ∧
      (command_server s config).sections.find? (fun x => x.1 = sec) =
        config.sections.find? (fun x => x.1 = sec)) ∧
    (command_token t config).defaults = config.defaults ∧
    (command_server s config).defaults = config.defaults := by
  refine ⟨?_, ?_, setMochiKey_idem _ _ _, setMochiKey_idem _ _ _, ?_, ?_, ?_, ?_, ?_⟩
  · rw [command_server, get_mochi_setMochiKey]
    rw [if_neg (by decide)]
    rw [show command_token t config = setMochiKey config "token" t from rfl,
      mochiEntry_setMochiKey, setMochiKey_defaults]
    simp
  · rw [command_server, get_mochi_setMochiKey, if_pos rfl]
  · intro key hk
    rw [command_token, mochiEntry_setMochiKey, if_neg hk]
  · intro key hk
    rw [command_server, mochiEntry_setMochiKey, if_neg hk]
  · intro sec hsec
    exact ⟨find?_setMochiKey_other _ _ _ _ hsec, find?_setMochiKey_other _ _ _ _ hsec⟩
  · exact setMochiKey_defaults _ _ _
  · exact setMochiKey_defaults _ _ _

/-- Witness for C10: setting token `abc` then server `https://example` on
the auto-created client configuration reloads as exactly those values,
and the token command is idempotent there. -/
theorem set_token_server_persist_witness :
    (command_server "https://example" (command_token "abc" defaultClientConfig)).get
      "mochi" "token" = some "abc" ∧
    (command_server "https://example" (command_token "abc" defaultClientConfig)).get
      "mochi" "server" = some "https://example" ∧
    command_token "abc" (command_token "abc" defaultClientConfig)
      = command_token "abc" defaultClientConfig := by
  have h := set_token_server_persist defaultClientConfig "abc" "https://example"
  exact ⟨h.1, h.2.1, h.2.2.1⟩
